import Mathlib

/-!
Verification of the package-manager MCP server (Rust sources under src/).

The repository shells out to `apk` / `apt-get` / `apt-cache`.  We embed the
pure parts of the code directly (validation, search-output parsing, command
construction, result classification) and model every subprocess invocation
through an oracle `ExecOracle : Cmd -> Option CmdOutput` (`none` models a
spawn failure, i.e. `Command::output()` returning `Err`).  Each embedded
operation returns, besides its result, the ordered list of commands it
handed to the oracle, so "no subprocess is spawned" is the statement that
this trace is empty.

Modelling notes, applying throughout:
- Subprocess stdout/stderr are modelled as `String` (the Rust code decodes
  the raw bytes with `from_utf8_lossy` before any use we reason about).
- Human-readable error message text is not modelled; the structured error
  kind and its machine-readable payload fields (the `serde_json` payloads in
  the source) are.
- Rust `char::is_alphanumeric` / `char::is_whitespace` are Unicode
  predicates; the embedding uses their ASCII fragments (`Char.isAlphanum`,
  `Char.isWhitespace`).  Every character class mentioned by the claims
  (letters, digits, dot, hyphen, underscore, plus, semicolon, pipe, space)
  is ASCII, where the two coincide.
- Environment-variable setup (DEBIAN_FRONTEND for apt) is not modelled: it
  does not affect any claim.
-/

/-- A subprocess invocation: program name plus argument vector, as built by
`std::process::Command`. -/
structure Cmd where
  program : String
  args : List String
  deriving DecidableEq, Repr

/-- What a spawned subprocess produced: captured stdout and stderr (already
decoded to text) and its exit code; `none` exit code models a process
terminated without one (killed by a signal), i.e. `status.code() == None`. -/
structure CmdOutput where
  stdout : String
  stderr : String
  exitCode : Option Int
  deriving DecidableEq, Repr

/-- Oracle giving the outcome of spawning a command; `none` models a spawn
failure (`Command::output()` returning `Err`). -/
def ExecOracle : Type := Cmd → Option CmdOutput

/-- src/backend/mod.rs `ExecResult`: result of executing a package manager
command. -/
structure ExecResult where
  stdout : Option String
  stderr : Option String
  status : Int
  deriving DecidableEq, Repr

/-- src/backend/mod.rs `InstallOptions`. -/
structure InstallOptions where
  package : String
  repository : Option String
  deriving DecidableEq, Repr

/-- src/backend/mod.rs `InstallVersionOptions`. -/
structure InstallVersionOptions where
  package : String
  version : String
  deriving DecidableEq, Repr

/-- src/backend/mod.rs `SearchOptions`. -/
structure SearchOptions where
  query : String
  repository : Option String
  deriving DecidableEq, Repr

/-- The error kinds the code surfaces as `McpError` values.  Message text is
abstracted away; the constructor arguments are the machine-readable payload
fields the source attaches (`error_type`, `package_name`, `version`,
`searched_repositories`, `available_versions`, exit code, stdout, stderr). -/
inductive McpErr where
  /-- `error_type: validation_error`, with the offending field and value. -/
  | validationError (field : String) (value : String)
  /-- `Command::output()` failed for the given command. -/
  | spawnError (cmd : Cmd)
  /-- `error_type: package_not_found`, carrying `searched_repositories`. -/
  | packageNotFound (package : String) (requestedVersion : String)
      (searchedRepositories : List String)
  /-- `error_type: version_not_found`, carrying `available_versions`. -/
  | versionNotFound (package : String) (requestedVersion : String)
      (availableVersions : List String)
  /-- `McpError::invalid_params` from the dispatcher. -/
  | invalidParams (msg : String)
  /-- dispatcher-level wrap of a non-zero exit: payload carries `exit_code`
  and the stdout/stderr fields it includes. -/
  | executionFailure (exitCode : Int) (stdout : Option String) (stderr : Option String)
  /-- dispatcher-level `error_type: system_error` wrap of a backend error. -/
  | systemError (inner : McpErr)
  deriving DecidableEq, Repr

/-- The `ExecResult` each backend operation builds from a subprocess output:
a captured stream is reported only when non-empty, and a missing exit code
becomes -1 (`output.status.code().unwrap_or(-1)`). -/
def execResultOfOutput (output : CmdOutput) : ExecResult :=
  { stdout := if output.stdout = "" then none else some output.stdout
    stderr := if output.stderr = "" then none else some output.stderr
    status := match output.exitCode with
      | some code => code
      | none => -1 }

/-! ### Character-list string primitives

The Rust string operations the parsing code uses (`str::lines`,
`str::strip_prefix`, `str::trim`, `str::split`) are embedded as structural
recursions over the character list of a `String`, so that every definition
evaluates by kernel reduction. -/

/-- Split a character list at every newline character; the resulting
segments still include a final empty segment when the input ends with a
newline (or is empty). -/
def splitOnNewline : List Char → List (List Char)
  | [] => [[]]
  | c :: rest =>
    if c = '\n' then [] :: splitOnNewline rest
    else
      match splitOnNewline rest with
      | [] => [[c]]
      | seg :: segs => (c :: seg) :: segs

/-- Drop a trailing carriage return, as Rust `str::lines` does per line. -/
def stripTrailingCR (l : List Char) : List Char :=
  if l.getLast? = some '\r' then l.dropLast else l

/-- Rust `str::lines`: split on newline, drop the final empty segment
produced by a terminating newline (or by the empty string), and strip a
trailing carriage return from each line. -/
def rustLines (s : String) : List String :=
  let segs := splitOnNewline s.data
  let segs := match segs.getLast? with
    | some [] => segs.dropLast
    | _ => segs
  segs.map (fun seg => (stripTrailingCR seg).asString)

/-- Rust `str::strip_prefix`: the remainder when `pre` is a prefix, else
`none`. -/
def stripPrefixChars : List Char → List Char → Option (List Char)
  | [], l => some l
  | _ :: _, [] => none
  | p :: ps, c :: cs => if c = p then stripPrefixChars ps cs else none

/-- Rust `str::trim` (ASCII whitespace fragment). -/
def trimChars (l : List Char) : List Char :=
  ((l.dropWhile Char.isWhitespace).reverse.dropWhile Char.isWhitespace).reverse

/-- Whether `s.trim().is_empty()` holds: every character is whitespace. -/
def isBlank (s : String) : Bool :=
  s.data.all Char.isWhitespace

/-- Rust `str::split(sep)` over the character list: like `splitOnNewline`
but for an arbitrary separator, keeping every (possibly empty) segment. -/
def splitOnSep (sep : Char) : List Char → List (List Char)
  | [] => [[]]
  | c :: rest =>
    if c = sep then [] :: splitOnSep sep rest
    else
      match splitOnSep sep rest with
      | [] => [[c]]
      | seg :: segs => (c :: seg) :: segs

/-- Rust `Vec::dedup`: collapse runs of consecutive equal elements to a
single element. -/
def dedupAdjacent : List String → List String
  | [] => []
  | [a] => [a]
  | a :: b :: rest =>
    if a = b then dedupAdjacent (b :: rest) else a :: dedupAdjacent (b :: rest)

/-- The apt loop `if !found_versions.contains(&v) { found_versions.push(v) }`
over a whole list, keeping the first occurrence of each element. -/
def dedupFirstAux (acc : List String) : List String → List String
  | [] => acc
  | v :: rest => dedupFirstAux (if acc.contains v then acc else acc ++ [v]) rest

/-- First-occurrence deduplication (the apt backend's accumulation). -/
def dedupFirst (l : List String) : List String :=
  dedupFirstAux [] l

/-- Lexicographic comparison of character lists by code point.  Rust orders
`String`s by their UTF-8 bytes, and byte-wise UTF-8 order coincides with
code-point lexicographic order, so this is the comparison `Vec::sort` uses
in the version resolver. -/
def lexLe : List Char → List Char → Bool
  | [], _ => true
  | _ :: _, [] => false
  | a :: as, b :: bs =>
    if a.toNat < b.toNat then true
    else if b.toNat < a.toNat then false
    else lexLe as bs

/-- Rust `Ord` on `String` (as a total boolean order). -/
def string_le (a b : String) : Bool :=
  lexLe a.data b.data

/-! ### src/backend/apk.rs — the Alpine (APK) backend -/

namespace Apk

/-- src/backend/apk.rs `SEARCH_REPOSITORIES`: list of repositories to search
across. -/
def SEARCH_REPOSITORIES : List String := [
  "https://dl-cdn.alpinelinux.org/alpine/edge/main",
  "https://dl-cdn.alpinelinux.org/alpine/edge/community",
  "https://dl-cdn.alpinelinux.org/alpine/v3.22/main",
  "https://dl-cdn.alpinelinux.org/alpine/v3.22/community",
  "https://dl-cdn.alpinelinux.org/alpine/v3.21/main",
  "https://dl-cdn.alpinelinux.org/alpine/v3.21/community",
  "https://dl-cdn.alpinelinux.org/alpine/v3.20/main",
  "https://dl-cdn.alpinelinux.org/alpine/v3.20/community",
  "https://dl-cdn.alpinelinux.org/alpine/v3.19/main",
  "https://dl-cdn.alpinelinux.org/alpine/v3.19/community",
  "https://dl-cdn.alpinelinux.org/alpine/v3.18/main",
  "https://dl-cdn.alpinelinux.org/alpine/v3.18/community",
  "https://dl-cdn.alpinelinux.org/alpine/v3.17/main",
  "https://dl-cdn.alpinelinux.org/alpine/v3.17/community",
  "https://dl-cdn.alpinelinux.org/alpine/v3.16/main",
  "https://dl-cdn.alpinelinux.org/alpine/v3.16/community",
  "https://dl-cdn.alpinelinux.org/alpine/v3.15/main",
  "https://dl-cdn.alpinelinux.org/alpine/v3.15/community"]

/-- The argument pairs `--repository <repo>` added once per repository. -/
def repositoryArgs (repos : List String) : List String :=
  repos.flatMap (fun repo => ["--repository", repo])

/-- src/backend/apk.rs `validate_package_version_input`: allow alphanumeric,
dots, hyphens, underscores, and plus signs. -/
def validate_package_version_input (input : String) : Bool :=
  input.data.all (fun c =>
    c.isAlphanum || c = '.' || c = '-' || c = '_' || c = '+')

/-- The `apk add` command built by `install_package`. -/
def installCmd (options : InstallOptions) : Cmd :=
  { program := "apk"
    args := ["add"] ++
      (match options.repository with
       | some repository => ["--repository", repository]
       | none => []) ++
      [options.package] }

/-- src/backend/apk.rs `install_package`. -/
def install_package (exec : ExecOracle) (options : InstallOptions) :
    Except McpErr ExecResult × List Cmd :=
  let cmd := installCmd options
  match exec cmd with
  | none => (.error (.spawnError cmd), [cmd])
  | some output => (.ok (execResultOfOutput output), [cmd])

/-- The `apk --no-cache [--repository ...] search --exact --all <query>`
command built by `search_package`. -/
def searchCmd (options : SearchOptions) : Cmd :=
  { program := "apk"
    args := ["--no-cache"] ++
      (match options.repository with
       | some repository => ["--repository", repository]
       | none => repositoryArgs SEARCH_REPOSITORIES) ++
      ["search", "--exact", "--all", options.query] }

/-- src/backend/apk.rs `search_package`. -/
def search_package (exec : ExecOracle) (options : SearchOptions) :
    Except McpErr ExecResult × List Cmd :=
  let cmd := searchCmd options
  match exec cmd with
  | none => (.error (.spawnError cmd), [cmd])
  | some output => (.ok (execResultOfOutput output), [cmd])

/-- src/backend/apk.rs `list_installed_packages` (`apk list -I`). -/
def list_installed_packages (exec : ExecOracle) :
    Except McpErr ExecResult × List Cmd :=
  let cmd : Cmd := { program := "apk", args := ["list", "-I"] }
  match exec cmd with
  | none => (.error (.spawnError cmd), [cmd])
  | some output => (.ok (execResultOfOutput output), [cmd])

/-- src/backend/apk.rs `refresh_repositories` (`apk update`). -/
def refresh_repositories (exec : ExecOracle) :
    Except McpErr ExecResult × List Cmd :=
  let cmd : Cmd := { program := "apk", args := ["update"] }
  match exec cmd with
  | none => (.error (.spawnError cmd), [cmd])
  | some output => (.ok (execResultOfOutput output), [cmd])

/-- One iteration of the parsing loop in `install_package_with_version`:
skip fetch-progress lines and blank lines, then `strip_prefix` the string
`<package>-`; the remainder, if any, is a candidate version. -/
def lineCandidate (package : String) (line : String) : Option String :=
  if (stripPrefixChars "fetch ".data line.data).isSome || isBlank line then
    none
  else
    match stripPrefixChars (package.data ++ ['-']) line.data with
    | some rest => some rest.asString
    | none => none

/-- All candidate versions collected from a search stdout (the
`found_versions` vector before sorting, in line order). -/
def foundVersionsOf (package : String) (stdout : String) : List String :=
  (rustLines stdout).filterMap (lineCandidate package)

/-- Candidates of a search `ExecResult`: the `if let Some(stdout)` guard
yields no candidates when stdout was absent. -/
def searchCandidates (package : String) (search_result : ExecResult) : List String :=
  match search_result.stdout with
  | none => []
  | some stdout => foundVersionsOf package stdout

/-- The pinning install command
`apk add --repository r1 ... --repository r18 <package>=<version>`. -/
def pinInstallCmd (package version : String) : Cmd :=
  { program := "apk"
    args := ["add"] ++ repositoryArgs SEARCH_REPOSITORIES ++
      [package ++ "=" ++ version] }

/-- src/backend/apk.rs `install_package_with_version`.  The Rust loop sets
`version_found` exactly when some pushed candidate equals the requested
version, i.e. when the requested version is a member of the candidate list;
`sort` + `dedup` is embedded as insertion sort followed by adjacent
deduplication. -/
def install_package_with_version (exec : ExecOracle)
    (options : InstallVersionOptions) : Except McpErr ExecResult × List Cmd :=
  if !validate_package_version_input options.package then
    (.error (.validationError "package_name" options.package), [])
  else if !validate_package_version_input options.version then
    (.error (.validationError "version" options.version), [])
  else
    match search_package exec { query := options.package, repository := none } with
    | (.error e, trace) => (.error e, trace)
    | (.ok search_result, trace) =>
      let found_versions := searchCandidates options.package search_result
      let version_found := found_versions.contains options.version
      if version_found then
        let cmd := pinInstallCmd options.package options.version
        match exec cmd with
        | none => (.error (.spawnError cmd), trace ++ [cmd])
        | some output => (.ok (execResultOfOutput output), trace ++ [cmd])
      else if found_versions.isEmpty then
        (.error (.packageNotFound options.package options.version
          SEARCH_REPOSITORIES), trace)
      else
        (.error (.versionNotFound options.package options.version
          (dedupAdjacent (List.insertionSort (fun a b => string_le a b = true) found_versions))),
         trace)

end Apk

/-! ### src/backend/apt.rs — the Debian (APT) backend -/

namespace Apt

/-- src/backend/apt.rs `validate_package_version_input`: allow alphanumeric,
dots, hyphens, underscores, plus signs, colons, and tildes. -/
def validate_package_version_input (input : String) : Bool :=
  input.data.all (fun c =>
    c.isAlphanum || c = '.' || c = '-' || c = '_' || c = '+' || c = ':' || c = '~')

/-- The `apt-get install -y` command built by `install_package`. -/
def installCmd (options : InstallOptions) : Cmd :=
  { program := "apt-get"
    args := ["install", "-y"] ++
      (match options.repository with
       | some repository => ["-o", "Dir::Etc::sourcelist=" ++ repository]
       | none => []) ++
      [options.package] }

/-- src/backend/apt.rs `install_package`. -/
def install_package (exec : ExecOracle) (options : InstallOptions) :
    Except McpErr ExecResult × List Cmd :=
  let cmd := installCmd options
  match exec cmd with
  | none => (.error (.spawnError cmd), [cmd])
  | some output => (.ok (execResultOfOutput output), [cmd])

/-- src/backend/apt.rs `search_package` (`apt-cache search <query>`; the
repository option is ignored for APT searches). -/
def search_package (exec : ExecOracle) (options : SearchOptions) :
    Except McpErr ExecResult × List Cmd :=
  let cmd : Cmd := { program := "apt-cache", args := ["search", options.query] }
  match exec cmd with
  | none => (.error (.spawnError cmd), [cmd])
  | some output => (.ok (execResultOfOutput output), [cmd])

/-- src/backend/apt.rs `list_installed_packages` (`apt list --installed`). -/
def list_installed_packages (exec : ExecOracle) :
    Except McpErr ExecResult × List Cmd :=
  let cmd : Cmd := { program := "apt", args := ["list", "--installed"] }
  match exec cmd with
  | none => (.error (.spawnError cmd), [cmd])
  | some output => (.ok (execResultOfOutput output), [cmd])

/-- src/backend/apt.rs `refresh_repositories` (`apt-get update`). -/
def refresh_repositories (exec : ExecOracle) :
    Except McpErr ExecResult × List Cmd :=
  let cmd : Cmd := { program := "apt-get", args := ["update"] }
  match exec cmd with
  | none => (.error (.spawnError cmd), [cmd])
  | some output => (.ok (execResultOfOutput output), [cmd])

/-- The availability probe `apt-cache madison <package>`. -/
def madisonCmd (package : String) : Cmd :=
  { program := "apt-cache", args := ["madison", package] }

/-- The pinning install command `apt-get install -y <package>=<version>`. -/
def pinInstallCmd (package version : String) : Cmd :=
  { program := "apt-get", args := ["install", "-y", package ++ "=" ++ version] }

/-- One line of `apt-cache madison` output, format
`package | version | source`: split on the pipe character; when at least two
fields exist the second one, trimmed, is the version. -/
def lineVersion (line : String) : Option String :=
  match splitOnSep '|' line.data with
  | _ :: v :: _ => some (trimChars v).asString
  | _ => none

/-- Every version string parsed from madison stdout, in line order and with
duplicates kept (the raw sequence the Rust loop walks). -/
def parsedVersions (stdout : String) : List String :=
  (rustLines stdout).filterMap lineVersion

/-- The version sequence the apt code walks: madison output is parsed only
when madison exited successfully (`madison_output.status.success()`). -/
def madisonVersions (madison_output : CmdOutput) : List String :=
  if madison_output.exitCode = some 0 then
    parsedVersions madison_output.stdout
  else []

/-- src/backend/apt.rs `install_package_with_version`.  `version_found` is
membership of the requested version in the parsed sequence, and
`found_versions` keeps first occurrences only (the `contains`-guarded
push).  When the version was found, or when no version could be parsed at
all, the code falls through to attempting the pinned install. -/
def install_package_with_version (exec : ExecOracle)
    (options : InstallVersionOptions) : Except McpErr ExecResult × List Cmd :=
  if !validate_package_version_input options.package then
    (.error (.validationError "package_name" options.package), [])
  else if !validate_package_version_input options.version then
    (.error (.validationError "version" options.version), [])
  else
    let mcmd := madisonCmd options.package
    match exec mcmd with
    | none => (.error (.spawnError mcmd), [mcmd])
    | some madison_output =>
      let parsed := madisonVersions madison_output
      let found_versions := dedupFirst parsed
      let version_found := parsed.contains options.version
      if version_found || found_versions.isEmpty then
        let cmd := pinInstallCmd options.package options.version
        match exec cmd with
        | none => (.error (.spawnError cmd), [mcmd, cmd])
        | some output => (.ok (execResultOfOutput output), [mcmd, cmd])
      else
        (.error (.versionNotFound options.package options.version found_versions),
         [mcmd])

end Apt

/-! ### src/apk.rs — the standalone APK server

The file src/apk.rs contains its own copies of `SEARCH_REPOSITORIES`,
`validate_package_version_input`, `search_package` and
`install_package_with_version`.  They are embedded here separately, each
translated from src/apk.rs, so that claim C10 can compare them with the
backend versions above. -/

namespace Standalone

/-- src/apk.rs `SEARCH_REPOSITORIES`. -/
def SEARCH_REPOSITORIES : List String := [
  "https://dl-cdn.alpinelinux.org/alpine/edge/main",
  "https://dl-cdn.alpinelinux.org/alpine/edge/community",
  "https://dl-cdn.alpinelinux.org/alpine/v3.22/main",
  "https://dl-cdn.alpinelinux.org/alpine/v3.22/community",
  "https://dl-cdn.alpinelinux.org/alpine/v3.21/main",
  "https://dl-cdn.alpinelinux.org/alpine/v3.21/community",
  "https://dl-cdn.alpinelinux.org/alpine/v3.20/main",
  "https://dl-cdn.alpinelinux.org/alpine/v3.20/community",
  "https://dl-cdn.alpinelinux.org/alpine/v3.19/main",
  "https://dl-cdn.alpinelinux.org/alpine/v3.19/community",
  "https://dl-cdn.alpinelinux.org/alpine/v3.18/main",
  "https://dl-cdn.alpinelinux.org/alpine/v3.18/community",
  "https://dl-cdn.alpinelinux.org/alpine/v3.17/main",
  "https://dl-cdn.alpinelinux.org/alpine/v3.17/community",
  "https://dl-cdn.alpinelinux.org/alpine/v3.16/main",
  "https://dl-cdn.alpinelinux.org/alpine/v3.16/community",
  "https://dl-cdn.alpinelinux.org/alpine/v3.15/main",
  "https://dl-cdn.alpinelinux.org/alpine/v3.15/community"]

/-- src/apk.rs `validate_package_version_input`. -/
def validate_package_version_input (input : String) : Bool :=
  input.data.all (fun c =>
    c.isAlphanum || c = '.' || c = '-' || c = '_' || c = '+')

/-- The search command built by src/apk.rs `search_package`. -/
def searchCmd (options : SearchOptions) : Cmd :=
  { program := "apk"
    args := ["--no-cache"] ++
      (match options.repository with
       | some repository => ["--repository", repository]
       | none => SEARCH_REPOSITORIES.flatMap (fun repo => ["--repository", repo])) ++
      ["search", "--exact", "--all", options.query] }

/-- src/apk.rs `search_package`. -/
def search_package (exec : ExecOracle) (options : SearchOptions) :
    Except McpErr ExecResult × List Cmd :=
  let cmd := searchCmd options
  match exec cmd with
  | none => (.error (.spawnError cmd), [cmd])
  | some output => (.ok (execResultOfOutput output), [cmd])

/-- The per-line candidate parsing of src/apk.rs
`install_package_with_version` (same shape as the backend copy). -/
def lineCandidate (package : String) (line : String) : Option String :=
  if (stripPrefixChars "fetch ".data line.data).isSome || isBlank line then
    none
  else
    match stripPrefixChars (package.data ++ ['-']) line.data with
    | some rest => some rest.asString
    | none => none

/-- src/apk.rs candidate collection over the search stdout lines. -/
def foundVersionsOf (package : String) (stdout : String) : List String :=
  (rustLines stdout).filterMap (lineCandidate package)

/-- src/apk.rs: the `if let Some(stdout)` guard around the parsing loop. -/
def searchCandidates (package : String) (search_result : ExecResult) : List String :=
  match search_result.stdout with
  | none => []
  | some stdout => foundVersionsOf package stdout

/-- The pinning install command built by src/apk.rs. -/
def pinInstallCmd (package version : String) : Cmd :=
  { program := "apk"
    args := ["add"] ++
      SEARCH_REPOSITORIES.flatMap (fun repo => ["--repository", repo]) ++
      [package ++ "=" ++ version] }

/-- src/apk.rs `install_package_with_version` (the free function the
standalone server dispatches to). -/
def install_package_with_version (exec : ExecOracle)
    (options : InstallVersionOptions) : Except McpErr ExecResult × List Cmd :=
  if !validate_package_version_input options.package then
    (.error (.validationError "package_name" options.package), [])
  else if !validate_package_version_input options.version then
    (.error (.validationError "version" options.version), [])
  else
    match search_package exec { query := options.package, repository := none } with
    | (.error e, trace) => (.error e, trace)
    | (.ok search_result, trace) =>
      let found_versions := searchCandidates options.package search_result
      let version_found := found_versions.contains options.version
      if version_found then
        let cmd := pinInstallCmd options.package options.version
        match exec cmd with
        | none => (.error (.spawnError cmd), trace ++ [cmd])
        | some output => (.ok (execResultOfOutput output), trace ++ [cmd])
      else if found_versions.isEmpty then
        (.error (.packageNotFound options.package options.version
          SEARCH_REPOSITORIES), trace)
      else
        (.error (.versionNotFound options.package options.version
          (dedupAdjacent (List.insertionSort (fun a b => string_le a b = true) found_versions))),
         trace)

end Standalone

/-! ### src/backend/mod.rs — request dispatch (`call_tool`) -/

/-- A JSON argument value as the dispatcher sees it: `as_str` succeeds only
on strings. -/
inductive JsonValue where
  | str (s : String)
  | other
  deriving DecidableEq, Repr

/-- src/backend/mod.rs `CallToolRequestParam`: operation name plus optional
argument bag. -/
structure CallToolRequestParam where
  name : String
  arguments : Option (List (String × JsonValue))
  deriving DecidableEq, Repr

/-- `arguments.as_ref().and_then(get(key)).and_then(as_str)`. -/
def getStringArg (arguments : Option (List (String × JsonValue)))
    (key : String) : Option String :=
  arguments.bind (fun args =>
    (args.lookup key).bind (fun v =>
      match v with
      | .str s => some s
      | .other => none))

/-- The two shapes of a tool-call response: `CallToolResult::success` and
`CallToolResult::error`, each carrying text content. -/
inductive CallToolResult where
  | success (content : List String)
  | error (content : List String)
  deriving DecidableEq, Repr

/-- The backend capability set the generic handler dispatches to (the
`PackageManager` trait), with each operation in oracle-passing form. -/
structure Backend where
  install_package : ExecOracle → InstallOptions → Except McpErr ExecResult × List Cmd
  install_package_with_version :
    ExecOracle → InstallVersionOptions → Except McpErr ExecResult × List Cmd
  search_package : ExecOracle → SearchOptions → Except McpErr ExecResult × List Cmd
  list_installed_packages : ExecOracle → Except McpErr ExecResult × List Cmd
  refresh_repositories : ExecOracle → Except McpErr ExecResult × List Cmd

/-- The Alpine backend assembled from the operations above. -/
def apkBackend : Backend :=
  { install_package := Apk.install_package
    install_package_with_version := Apk.install_package_with_version
    search_package := Apk.search_package
    list_installed_packages := Apk.list_installed_packages
    refresh_repositories := Apk.refresh_repositories }

/-- The Debian backend assembled from the operations above. -/
def aptBackend : Backend :=
  { install_package := Apt.install_package
    install_package_with_version := Apt.install_package_with_version
    search_package := Apt.search_package
    list_installed_packages := Apt.list_installed_packages
    refresh_repositories := Apt.refresh_repositories }

/-- src/backend/mod.rs `call_tool`: extract and check required arguments,
dispatch to the backend operation, and convert the outcome into a success
response or a structured failure.  The `tokio::task::spawn_blocking` wrapper
is not modelled (its failure mode is the worker-spawn error, which no claim
concerns); the trace accumulates the commands the chosen backend operation
spawned. -/
def callTool (b : Backend) (exec : ExecOracle) (req : CallToolRequestParam) :
    Except McpErr CallToolResult × List Cmd :=
  if req.name = "install_package" then
    match getStringArg req.arguments "package_name" with
    | none => (.error (.invalidParams "missing required parameter: package_name"), [])
    | some package =>
      let repository := getStringArg req.arguments "repository"
      match b.install_package exec { package := package, repository := repository } with
      | (.ok exec_result, trace) =>
        if exec_result.status = 0 then
          (.ok (.success ["Package " ++ package ++ " was installed successfully."]),
           trace)
        else
          (.error (.executionFailure exec_result.status exec_result.stdout
            exec_result.stderr), trace)
      | (.error e, trace) => (.error (.systemError e), trace)
  else if req.name = "install_package_with_version" then
    match getStringArg req.arguments "package_name" with
    | none => (.error (.invalidParams "missing required parameter: package_name"), [])
    | some package =>
      match getStringArg req.arguments "version" with
      | none => (.error (.invalidParams "missing required parameter: version"), [])
      | some version =>
        match b.install_package_with_version exec
            { package := package, version := version } with
        | (.ok exec_result, trace) =>
          if exec_result.status = 0 then
            (.ok (.success ["Package " ++ package ++ " version " ++ version ++
              " was installed successfully."]), trace)
          else
            (.error (.executionFailure exec_result.status exec_result.stdout
              exec_result.stderr), trace)
        | (.error e, trace) => (.error e, trace)
  else if req.name = "refresh_repositories" then
    match b.refresh_repositories exec with
    | (.ok exec_result, trace) =>
      if exec_result.status = 0 then
        (.ok (.success ["All repositories were refreshed successfully."]), trace)
      else
        (.error (.executionFailure exec_result.status exec_result.stdout
          exec_result.stderr), trace)
    | (.error e, trace) => (.error (.systemError e), trace)
  else if req.name = "list_installed_packages" then
    match b.list_installed_packages exec with
    | (.ok exec_result, trace) =>
      if exec_result.status = 0 then
        (.ok (.success ["Installed packages:\n" ++ exec_result.stdout.getD ""]), trace)
      else
        (.error (.executionFailure exec_result.status none exec_result.stderr), trace)
    | (.error e, trace) => (.error (.systemError e), trace)
  else if req.name = "search_package" then
    match getStringArg req.arguments "query" with
    | none => (.error (.invalidParams "missing required parameter: query"), [])
    | some query =>
      let repository := getStringArg req.arguments "repository"
      match b.search_package exec { query := query, repository := repository } with
      | (.ok exec_result, trace) =>
        if exec_result.status = 0 then
          let searchResults :=
            match exec_result.stdout with
            | some stdout =>
              if isBlank stdout then
                "Search completed for query " ++ query ++
                  " but no packages were found."
              else
                "Search results for query " ++ query ++ ":\n\n" ++
                  String.intercalate "\n"
                    ((rustLines stdout).filter
                      (fun line => !(stripPrefixChars "fetch ".data line.data).isSome))
            | none =>
              "Search completed for query " ++ query ++ " but no packages were found."
          (.ok (.success [searchResults]), trace)
        else
          (.error (.executionFailure exec_result.status exec_result.stdout
            exec_result.stderr), trace)
      | (.error e, trace) => (.error (.systemError e), trace)
  else
    (.ok (.error ["Unknown tool " ++ req.name ++
      ". Available tools: install_package, install_package_with_version, list_installed_packages, refresh_repositories, search_package"]),
     [])

/-! ### Properties of the ordering and deduplication helpers -/

theorem char_eq_of_not_lt {a b : Char} (h1 : ¬ a.toNat < b.toNat)
    (h2 : ¬ b.toNat < a.toNat) : a = b := by
  apply Char.ext
  apply UInt32.ext
  simp only [Char.toNat, UInt32.toNat] at h1 h2 ⊢
  omega

theorem lexLe_total : ∀ as bs : List Char, lexLe as bs = true ∨ lexLe bs as = true
  | [], _ => Or.inl rfl
  | _ :: _, [] => Or.inr rfl
  | a :: as, b :: bs => by
    by_cases hab : a.toNat < b.toNat
    · left; simp [lexLe, hab]
    · by_cases hba : b.toNat < a.toNat
      · right; simp [lexLe, hba]
      · have heq : a = b := char_eq_of_not_lt hab hba
        subst heq
        rcases lexLe_total as bs with h | h
        · left; simp [lexLe, h]
        · right; simp [lexLe, h]

theorem lexLe_trans : ∀ as bs cs : List Char, lexLe as bs = true →
    lexLe bs cs = true → lexLe as cs = true
  | [], _, _, _, _ => rfl
  | _ :: _, [], _, h, _ => by simp [lexLe] at h
  | _ :: _, _ :: _, [], _, h => by simp [lexLe] at h
  | a :: as, b :: bs, c :: cs, h1, h2 => by
    by_cases hab : a.toNat < b.toNat
    · by_cases hbc : b.toNat < c.toNat
      · simp [lexLe, Nat.lt_trans hab hbc]
      · by_cases hcb : c.toNat < b.toNat
        · simp [lexLe, hbc, hcb] at h2
        · have heq : b = c := char_eq_of_not_lt hbc hcb
          subst heq
          simp [lexLe, hab]
    · by_cases hba : b.toNat < a.toNat
      · simp [lexLe, hab, hba] at h1
      · have heq : a = b := char_eq_of_not_lt hab hba
        subst heq
        simp only [lexLe, hab, if_false, if_neg hba] at h1 ⊢
        by_cases hac : a.toNat < c.toNat
        · simp [lexLe, hac]
        · by_cases hca : c.toNat < a.toNat
          · simp [lexLe, hac, hca] at h2
          · have heq2 : a = c := char_eq_of_not_lt hac hca
            subst heq2
            simp only [lexLe, hac, if_false, if_neg hca] at h2 ⊢
            exact lexLe_trans as bs cs h1 h2

theorem lexLe_antisymm : ∀ as bs : List Char, lexLe as bs = true →
    lexLe bs as = true → as = bs
  | [], [], _, _ => rfl
  | [], _ :: _, _, h => by simp [lexLe] at h
  | _ :: _, [], h, _ => by simp [lexLe] at h
  | a :: as, b :: bs, h1, h2 => by
    by_cases hab : a.toNat < b.toNat
    · simp [lexLe, hab, Nat.lt_asymm hab] at h2
    · by_cases hba : b.toNat < a.toNat
      · simp [lexLe, hab, hba] at h1
      · have heq : a = b := char_eq_of_not_lt hab hba
        subst heq
        simp only [lexLe, hab, if_false, if_neg hba] at h1 h2
        rw [lexLe_antisymm as bs h1 h2]

theorem string_le_total (a b : String) :
    string_le a b = true ∨ string_le b a = true :=
  lexLe_total a.data b.data

theorem string_le_trans {a b c : String} (h1 : string_le a b = true)
    (h2 : string_le b c = true) : string_le a c = true :=
  lexLe_trans a.data b.data c.data h1 h2

theorem string_le_antisymm {a b : String} (h1 : string_le a b = true)
    (h2 : string_le b a = true) : a = b := by
  cases a; cases b
  exact congrArg String.mk (lexLe_antisymm _ _ h1 h2)

instance : IsTotal String (fun a b => string_le a b = true) :=
  ⟨string_le_total⟩

instance : IsTrans String (fun a b => string_le a b = true) :=
  ⟨fun _ _ _ => string_le_trans⟩

theorem mem_dedupAdjacent : ∀ (l : List String) (x : String),
    x ∈ dedupAdjacent l ↔ x ∈ l
  | [], x => by simp [dedupAdjacent]
  | [a], x => by simp [dedupAdjacent]
  | a :: b :: rest, x => by
    by_cases hab : a = b
    · subst hab
      have hd : dedupAdjacent (a :: a :: rest) = dedupAdjacent (a :: rest) := by
        simp [dedupAdjacent]
      rw [hd, mem_dedupAdjacent (a :: rest) x]
      simp [List.mem_cons]
    · simp only [dedupAdjacent, if_neg hab, List.mem_cons]
      rw [mem_dedupAdjacent (b :: rest) x]
      simp [List.mem_cons]

theorem dedupAdjacent_sublist : ∀ l : List String,
    List.Sublist (dedupAdjacent l) l
  | [] => List.Sublist.refl []
  | [a] => List.Sublist.refl [a]
  | a :: b :: rest => by
    by_cases hab : a = b
    · simp only [dedupAdjacent, if_pos hab]
      exact (dedupAdjacent_sublist (b :: rest)).trans (List.sublist_cons_self a _)
    · simp only [dedupAdjacent, if_neg hab]
      exact (dedupAdjacent_sublist (b :: rest)).cons₂ a

theorem sorted_dedupAdjacent {l : List String}
    (h : l.Sorted (fun a b => string_le a b = true)) :
    (dedupAdjacent l).Sorted (fun a b => string_le a b = true) :=
  h.sublist (dedupAdjacent_sublist l)

theorem nodup_dedupAdjacent : ∀ l : List String,
    l.Sorted (fun a b => string_le a b = true) → (dedupAdjacent l).Nodup
  | [], _ => List.nodup_nil
  | [a], _ => List.nodup_singleton a
  | a :: b :: rest, h => by
    have htail : (b :: rest).Sorted (fun a b => string_le a b = true) := h.of_cons
    by_cases hab : a = b
    · simp only [dedupAdjacent, if_pos hab]
      exact nodup_dedupAdjacent (b :: rest) htail
    · simp only [dedupAdjacent, if_neg hab]
      refine List.nodup_cons.mpr ⟨?_, nodup_dedupAdjacent (b :: rest) htail⟩
      intro hmem
      have hmem2 : a ∈ b :: rest := (mem_dedupAdjacent _ _).mp hmem
      rcases List.mem_cons.mp hmem2 with hcase | hcase
      · exact hab hcase
      · have h1 : string_le a b = true :=
          List.rel_of_sorted_cons h b (List.mem_cons_self b rest)
        have h2 : string_le b a = true := List.rel_of_sorted_cons htail a hcase
        exact hab (string_le_antisymm h1 h2)

theorem mem_dedupFirstAux : ∀ (l acc : List String) (x : String),
    x ∈ dedupFirstAux acc l ↔ x ∈ acc ∨ x ∈ l
  | [], acc, x => by simp [dedupFirstAux]
  | v :: rest, acc, x => by
    simp only [dedupFirstAux]
    rw [mem_dedupFirstAux rest _ x]
    by_cases hv : acc.contains v
    · have hvmem : v ∈ acc := by
        simpa [List.contains] using List.elem_iff.mp hv
      simp only [if_pos hv, List.mem_cons]
      constructor
      · rintro (h | h)
        · exact Or.inl h
        · exact Or.inr (Or.inr h)
      · rintro (h | h | h)
        · exact Or.inl h
        · exact Or.inl (h ▸ hvmem)
        · exact Or.inr h
    · simp only [if_neg hv, List.mem_append, List.mem_singleton, List.mem_cons]
      tauto

theorem mem_dedupFirst (l : List String) (x : String) :
    x ∈ dedupFirst l ↔ x ∈ l := by
  rw [dedupFirst, mem_dedupFirstAux]
  simp

theorem nodup_dedupFirstAux : ∀ (l acc : List String), acc.Nodup →
    (dedupFirstAux acc l).Nodup
  | [], acc, h => h
  | v :: rest, acc, h => by
    simp only [dedupFirstAux]
    by_cases hv : acc.contains v
    · rw [if_pos hv]
      exact nodup_dedupFirstAux rest acc h
    · rw [if_neg hv]
      refine nodup_dedupFirstAux rest _ ?_
      have hvmem : v ∉ acc := by
        intro hmem
        exact hv (by simpa [List.contains] using List.elem_iff.mpr hmem)
      simp [List.nodup_append, h, hvmem]

theorem nodup_dedupFirst (l : List String) : (dedupFirst l).Nodup :=
  nodup_dedupFirstAux l [] List.nodup_nil

/-! ### Auxiliary facts about the embedded operations -/

theorem stripPrefixChars_append : ∀ (p l : List Char),
    stripPrefixChars p (p ++ l) = some l
  | [], _ => rfl
  | c :: p, l => by simp [stripPrefixChars, stripPrefixChars_append p l]

/-- An oracle under which every spawn fails; used as a concrete witness
environment where no subprocess may be consulted. -/
def execNone : ExecOracle := fun _ => none

/-! ### Claim theorems -/

/-- C1 counterexample: with target package `curl` and the two search-output
lines `curl-7.88.1-r1` and `curl-extra-7.0`, the parser does NOT produce
exactly the one candidate `7.88.1-r1`: the line `curl-extra-7.0` also
strips the prefix `curl-` and contributes the candidate `extra-7.0`. -/
theorem c1_counterexample :
    Apk.foundVersionsOf "curl" "curl-7.88.1-r1\ncurl-extra-7.0" ≠
      ["7.88.1-r1"] ∧
    "extra-7.0" ∈ Apk.foundVersionsOf "curl" "curl-7.88.1-r1\ncurl-extra-7.0" := by
  constructor
  · decide
  · decide

/-- C1 (amended): a search-output line that begins with the target package
name followed by a hyphen IS treated as a candidate even when it continues
with another package's name: on the two lines `curl-7.88.1-r1` and
`curl-extra-7.0` with target `curl` the parser produces the two candidates
`7.88.1-r1` and `extra-7.0`, and in general any non-fetch, non-blank line
of the form `<package>-<rest>` yields candidate `<rest>`. -/
theorem c1_prefix_matching :
    Apk.foundVersionsOf "curl" "curl-7.88.1-r1\ncurl-extra-7.0" =
      ["7.88.1-r1", "extra-7.0"] ∧
    ∀ (package rest : String),
      (stripPrefixChars "fetch ".data (package ++ "-" ++ rest).data).isSome = false →
      isBlank (package ++ "-" ++ rest) = false →
      Apk.lineCandidate package (package ++ "-" ++ rest) = some rest := by
  constructor
  · rfl
  · intro package rest hf hb
    unfold Apk.lineCandidate
    rw [hf, hb]
    have hdata : (package ++ "-" ++ rest).data = (package.data ++ ['-']) ++ rest.data := rfl
    rw [hdata, stripPrefixChars_append]
    rfl

/-- C1 witness: the general part of the amended claim applied to the
concrete cross-matching line `curl-extra-7.0`. -/
theorem c1_prefix_matching_witness :
    Apk.lineCandidate "curl" ("curl" ++ "-" ++ "extra-7.0") = some "extra-7.0" :=
  c1_prefix_matching.2 "curl" "extra-7.0" (by decide) (by decide)

/-- C6: in the version resolver's parsing of search output, a fetch-progress
line or a blank line yields no candidate; any other line beginning with
`<package>-` yields exactly the remainder after that prefix; any other line
yields no candidate; and the collected candidate list is exactly the
line-by-line result over the Rust `lines()` decomposition of stdout. -/
theorem c6_line_parsing :
    (∀ (package line : String),
      (stripPrefixChars "fetch ".data line.data).isSome = true ∨ isBlank line = true →
      Apk.lineCandidate package line = none) ∧
    (∀ (package line : String),
      (stripPrefixChars "fetch ".data line.data).isSome = false →
      isBlank line = false →
      ∀ rest : List Char,
        stripPrefixChars (package.data ++ ['-']) line.data = some rest →
        Apk.lineCandidate package line = some rest.asString) ∧
    (∀ (package line : String),
      stripPrefixChars (package.data ++ ['-']) line.data = none →
      Apk.lineCandidate package line = none) ∧
    (∀ (package stdout : String),
      Apk.foundVersionsOf package stdout =
        (rustLines stdout).filterMap (Apk.lineCandidate package)) := by
  refine ⟨?_, ?_, ?_, ?_⟩
  · intro package line h
    rcases h with h | h
    · simp [Apk.lineCandidate, h]
    · simp [Apk.lineCandidate, h]
  · intro package line hf hb rest hstrip
    simp [Apk.lineCandidate, hf, hb, hstrip]
  · intro package line hstrip
    by_cases hcond :
        ((stripPrefixChars "fetch ".data line.data).isSome || isBlank line) = true
    · simp [Apk.lineCandidate, hcond]
    · simp only [Apk.lineCandidate, hstrip]
      rw [if_neg hcond]
  · intro package stdout
    rfl

/-- C6 witness: the parsing facts applied at concrete lines of each shape
(fetch line, blank line, matching line, non-matching line). -/
theorem c6_line_parsing_witness :
    Apk.lineCandidate "curl" "fetch https://dl-cdn.alpinelinux.org/x" = none ∧
    Apk.lineCandidate "curl" "   " = none ∧
    Apk.lineCandidate "curl" "curl-7.88.1-r1" = some "7.88.1-r1" ∧
    Apk.lineCandidate "curl" "wget-1.21.4-r0" = none := by
  refine ⟨?_, ?_, ?_, ?_⟩
  · exact c6_line_parsing.1 "curl" "fetch https://dl-cdn.alpinelinux.org/x"
      (Or.inl (by decide))
  · exact c6_line_parsing.1 "curl" "   " (Or.inr (by decide))
  · exact c6_line_parsing.2.1 "curl" "curl-7.88.1-r1" (by decide) (by decide)
      "7.88.1-r1".data (by decide)
  · exact c6_line_parsing.2.2.1 "curl" "wget-1.21.4-r0" (by decide)

/-- The whitelist character class of the APK backend: alphanumeric plus
dot, hyphen, underscore, plus sign. -/
def apkAllowedChar (c : Char) : Bool :=
  c.isAlphanum || c = '.' || c = '-' || c = '_' || c = '+'

/-- C2: validation accepts exactly the strings made of whitelisted
characters; a string containing a disallowed character (such as a
semicolon, a pipe, or a space) fails validation, in which case
`install_package_with_version` returns the validation error with an empty
command trace (no subprocess is spawned); and once both inputs validate no
validation error can be produced. -/
theorem c2_validation :
    (∀ s : String, Apk.validate_package_version_input s = true ↔
      ∀ c ∈ s.data, apkAllowedChar c = true) ∧
    (∀ s : String, (';' ∈ s.data ∨ '|' ∈ s.data ∨ ' ' ∈ s.data) →
      Apk.validate_package_version_input s = false) ∧
    (∀ (exec : ExecOracle) (options : InstallVersionOptions),
      Apk.validate_package_version_input options.package = false →
      Apk.install_package_with_version exec options =
        (.error (.validationError "package_name" options.package), [])) ∧
    (∀ (exec : ExecOracle) (options : InstallVersionOptions),
      Apk.validate_package_version_input options.package = true →
      Apk.validate_package_version_input options.version = false →
      Apk.install_package_with_version exec options =
        (.error (.validationError "version" options.version), [])) ∧
    (∀ (exec : ExecOracle) (options : InstallVersionOptions),
      Apk.validate_package_version_input options.package = true →
      Apk.validate_package_version_input options.version = true →
      ∀ field value : String,
        (Apk.install_package_with_version exec options).1 ≠
          .error (.validationError field value)) := by
  have hiff : ∀ s : String, Apk.validate_package_version_input s = true ↔
      ∀ c ∈ s.data, apkAllowedChar c = true := by
    intro s
    simp [Apk.validate_package_version_input, apkAllowedChar, List.all_eq_true]
  refine ⟨hiff, ?_, ?_, ?_, ?_⟩
  · intro s h
    cases hval : Apk.validate_package_version_input s with
    | false => rfl
    | true =>
      exfalso
      have hall := (hiff s).mp hval
      rcases h with h | h | h
      · have := hall ';' h; simp [apkAllowedChar] at this
      · have := hall '|' h; simp [apkAllowedChar] at this
      · have := hall ' ' h; simp [apkAllowedChar] at this
  · intro exec options hp
    unfold Apk.install_package_with_version
    rw [hp]
    rfl
  · intro exec options hp hv
    unfold Apk.install_package_with_version
    rw [hp, hv]
    rfl
  · intro exec options hp hv field value
    unfold Apk.install_package_with_version
    rw [hp, hv]
    simp only [Bool.not_true, Bool.false_eq_true, if_false]
    unfold Apk.search_package
    dsimp only
    cases hexec : exec (Apk.searchCmd { query := options.package, repository := none }) with
    | none => simp
    | some out =>
      dsimp only
      split
      · split <;> simp
      · split <;> simp

/-- C2 witness: the package name `a;b` contains a semicolon, fails
validation, and `install_package_with_version` returns the validation error
with an empty spawn trace. -/
theorem c2_validation_witness :
    Apk.install_package_with_version execNone { package := "a;b", version := "1.0" } =
      (.error (.validationError "package_name" "a;b"), []) :=
  c2_validation.2.2.1 execNone { package := "a;b", version := "1.0" } (by decide)

/-- C10: the standalone version resolver of src/apk.rs and the backend
version resolver of src/backend/apk.rs are the same function: identical
validation, identical search command, identical candidate parsing,
identical found/not-found classification, and identical results and error
payloads, for every oracle and every input. -/
theorem c10_standalone_backend_equivalent :
    ∀ (exec : ExecOracle) (options : InstallVersionOptions),
      Standalone.install_package_with_version exec options =
        Apk.install_package_with_version exec options :=
  fun _ _ => rfl

/-- C3: when the search produced a candidate exactly equal to the requested
version, the resolver issues exactly one further command, the pinned
install `apk add --repository r1 ... --repository r18 package=version`
scanning every known repository, and returns the ExecResult built from that
subprocess's own output unmodified, its status being the subprocess's exit
code. -/
theorem c3_exact_match_installs :
    ∀ (exec : ExecOracle) (options : InstallVersionOptions)
      (searchOut installOut : CmdOutput),
      Apk.validate_package_version_input options.package = true →
      Apk.validate_package_version_input options.version = true →
      exec (Apk.searchCmd { query := options.package, repository := none }) =
        some searchOut →
      options.version ∈
        Apk.searchCandidates options.package (execResultOfOutput searchOut) →
      exec (Apk.pinInstallCmd options.package options.version) = some installOut →
      Apk.install_package_with_version exec options =
        (.ok (execResultOfOutput installOut),
         [Apk.searchCmd { query := options.package, repository := none },
          Apk.pinInstallCmd options.package options.version]) ∧
      Apk.pinInstallCmd options.package options.version =
        { program := "apk"
          args := ["add"] ++
            Apk.SEARCH_REPOSITORIES.flatMap (fun repo => ["--repository", repo]) ++
            [options.package ++ "=" ++ options.version] } ∧
      (execResultOfOutput installOut).status =
        (match installOut.exitCode with
         | some code => code
         | none => -1) := by
  intro exec options searchOut installOut hp hv hsearch hmem hpin
  refine ⟨?_, rfl, rfl⟩
  have hc : (Apk.searchCandidates options.package
      (execResultOfOutput searchOut)).contains options.version = true := by
    simpa [List.contains] using List.elem_iff.mpr hmem
  unfold Apk.install_package_with_version
  rw [hp, hv]
  simp only [Bool.not_true, Bool.false_eq_true, if_false]
  unfold Apk.search_package
  dsimp only
  rw [hsearch]
  dsimp only
  rw [if_pos hc, hpin]
  rfl

/-- The search output used by the C3 witness environment. -/
def searchOutExact : CmdOutput :=
  { stdout := "curl-7.88.1-r1\n", stderr := "", exitCode := some 0 }

/-- The install output used by the C3 witness environment. -/
def installOutExact : CmdOutput :=
  { stdout := "OK (1/1) installing curl", stderr := "", exitCode := some 0 }

/-- A concrete oracle: the pinned `apk add` invocation (first argument
`add`) succeeds with `installOutExact`; any other command returns the
search output `searchOutExact`. -/
def execExact : ExecOracle := fun c =>
  if c.args.head? = some "add" then some installOutExact else some searchOutExact

/-- C3 witness: requesting `curl` at version `7.88.1-r1` when the search
output lists exactly that version issues the pinned install and returns its
result unmodified. -/
theorem c3_exact_match_installs_witness :
    Apk.install_package_with_version execExact
      { package := "curl", version := "7.88.1-r1" } =
      (.ok (execResultOfOutput installOutExact),
       [Apk.searchCmd { query := "curl", repository := none },
        Apk.pinInstallCmd "curl" "7.88.1-r1"]) :=
  (c3_exact_match_installs execExact { package := "curl", version := "7.88.1-r1" }
    searchOutExact installOutExact (by decide) (by decide) rfl (by decide) rfl).1

/-- C4 (amended): when candidates were found but none equals the requested
version, both backends fail with the version-not-found error carrying a
deduplicated list of exactly the candidates found, without issuing an
install command; the APK backend's list is additionally sorted, while the
APT backend's list keeps first-occurrence order and is not sorted in
general. -/
theorem c4_version_not_found :
    (∀ (exec : ExecOracle) (options : InstallVersionOptions) (searchOut : CmdOutput),
      Apk.validate_package_version_input options.package = true →
      Apk.validate_package_version_input options.version = true →
      exec (Apk.searchCmd { query := options.package, repository := none }) =
        some searchOut →
      options.version ∉
        Apk.searchCandidates options.package (execResultOfOutput searchOut) →
      Apk.searchCandidates options.package (execResultOfOutput searchOut) ≠ [] →
      ∃ available : List String,
        Apk.install_package_with_version exec options =
          (.error (.versionNotFound options.package options.version available),
           [Apk.searchCmd { query := options.package, repository := none }]) ∧
        available.Sorted (fun a b => string_le a b = true) ∧
        available.Nodup ∧
        (∀ v, v ∈ available ↔
          v ∈ Apk.searchCandidates options.package (execResultOfOutput searchOut))) ∧
    (∀ (exec : ExecOracle) (options : InstallVersionOptions) (madisonOut : CmdOutput),
      Apt.validate_package_version_input options.package = true →
      Apt.validate_package_version_input options.version = true →
      exec (Apt.madisonCmd options.package) = some madisonOut →
      options.version ∉ Apt.madisonVersions madisonOut →
      Apt.madisonVersions madisonOut ≠ [] →
      Apt.install_package_with_version exec options =
        (.error (.versionNotFound options.package options.version
          (dedupFirst (Apt.madisonVersions madisonOut))),
         [Apt.madisonCmd options.package]) ∧
      (dedupFirst (Apt.madisonVersions madisonOut)).Nodup ∧
      (∀ v, v ∈ dedupFirst (Apt.madisonVersions madisonOut) ↔
        v ∈ Apt.madisonVersions madisonOut)) := by
  constructor
  · intro exec options searchOut hp hv hsearch hnotmem hne
    have hc : (Apk.searchCandidates options.package
        (execResultOfOutput searchOut)).contains options.version = false := by
      cases hcc : (Apk.searchCandidates options.package
          (execResultOfOutput searchOut)).contains options.version with
      | false => rfl
      | true =>
        exact absurd (List.elem_iff.mp (by simpa [List.contains] using hcc)) hnotmem
    have hemp : (Apk.searchCandidates options.package
        (execResultOfOutput searchOut)).isEmpty = false := by
      cases hfl : Apk.searchCandidates options.package (execResultOfOutput searchOut) with
      | nil => exact absurd hfl hne
      | cons a l => rfl
    refine ⟨dedupAdjacent (List.insertionSort (fun a b => string_le a b = true)
      (Apk.searchCandidates options.package (execResultOfOutput searchOut))), ?_, ?_, ?_, ?_⟩
    · unfold Apk.install_package_with_version
      rw [hp, hv]
      simp only [Bool.not_true, Bool.false_eq_true, if_false]
      unfold Apk.search_package
      dsimp only
      rw [hsearch]
      dsimp only
      rw [if_neg (by rw [hc]; exact Bool.false_ne_true)]
      rw [if_neg (by rw [hemp]; exact Bool.false_ne_true)]
    · exact sorted_dedupAdjacent (List.sorted_insertionSort _ _)
    · exact nodup_dedupAdjacent _ (List.sorted_insertionSort _ _)
    · intro v
      exact (mem_dedupAdjacent _ v).trans (List.perm_insertionSort _ _).mem_iff
  · intro exec options madisonOut hp hv hmadison hnotmem hne
    have hc : (Apt.madisonVersions madisonOut).contains options.version = false := by
      cases hcc : (Apt.madisonVersions madisonOut).contains options.version with
      | false => rfl
      | true =>
        exact absurd (List.elem_iff.mp (by simpa [List.contains] using hcc)) hnotmem
    have hemp : (dedupFirst (Apt.madisonVersions madisonOut)).isEmpty = false := by
      cases hfl : dedupFirst (Apt.madisonVersions madisonOut) with
      | nil =>
        exfalso
        rcases List.exists_mem_of_ne_nil _ hne with ⟨v, hvmem⟩
        have : v ∈ dedupFirst (Apt.madisonVersions madisonOut) :=
          (mem_dedupFirst _ v).mpr hvmem
        rw [hfl] at this
        exact List.not_mem_nil v this
      | cons a l => rfl
    refine ⟨?_, nodup_dedupFirst _, fun v => mem_dedupFirst _ v⟩
    unfold Apt.install_package_with_version
    rw [hp, hv]
    simp only [Bool.not_true, Bool.false_eq_true, if_false]
    rw [hmadison]
    dsimp only
    rw [hc, hemp]
    rfl

/-- Madison output with versions listed in the order 2.0 then 1.0, as the
C4 counterexample environment returns it. -/
def madisonOutUnsorted : CmdOutput :=
  { stdout := "p | 2.0 | stable\np | 1.0 | oldstable", stderr := "", exitCode := some 0 }

/-- A concrete oracle for the C4 counterexample: `apt-cache` commands
return the unsorted madison listing; everything else fails to spawn. -/
def execAptUnsorted : ExecOracle := fun c =>
  if c.program = "apt-cache" then some madisonOutUnsorted else none

/-- C4 counterexample: on the APT backend (one of the two implementations
the claim covers), requesting version 3.0 of package p when madison lists
2.0 then 1.0 yields a version-not-found payload [2.0, 1.0] that is NOT
sorted: the claim that the payload is always the sorted deduplicated
candidate list fails. -/
theorem c4_counterexample :
    Apt.install_package_with_version execAptUnsorted
      { package := "p", version := "3.0" } =
      (.error (.versionNotFound "p" "3.0" ["2.0", "1.0"]), [Apt.madisonCmd "p"]) ∧
    ¬ (["2.0", "1.0"] : List String).Sorted (fun a b => string_le a b = true) := by
  constructor
  · rfl
  · intro h
    have h20 : string_le "2.0" "1.0" = true :=
      List.rel_of_sorted_cons h "1.0" (List.mem_singleton.mpr rfl)
    exact absurd h20 (by decide)

/-- Search output listing two versions of curl out of order with a repeat,
used by the C4 witness environment. -/
def searchOutC4 : CmdOutput :=
  { stdout := "curl-2.0-r0\ncurl-1.0-r0\ncurl-2.0-r0\n", stderr := ""
    exitCode := some 0 }

/-- A concrete oracle for the C4 witness: every command returns the search
output above. -/
def execC4 : ExecOracle := fun _ => some searchOutC4

/-- C4 witness: requesting the absent version 9.9 of curl on the APK
backend produces the version-not-found payload, sorted, deduplicated, and
containing exactly the discovered candidates. -/
theorem c4_version_not_found_witness :
    ∃ available : List String,
      Apk.install_package_with_version execC4 { package := "curl", version := "9.9" } =
        (.error (.versionNotFound "curl" "9.9" available),
         [Apk.searchCmd { query := "curl", repository := none }]) ∧
      available.Sorted (fun a b => string_le a b = true) ∧
      available.Nodup ∧
      (∀ v, v ∈ available ↔
        v ∈ Apk.searchCandidates "curl" (execResultOfOutput searchOutC4)) :=
  c4_version_not_found.1 execC4 { package := "curl", version := "9.9" } searchOutC4
    (by decide) (by decide) rfl (by decide) (by decide)

/-- C5 (amended): on the APK backend, a search that yields zero candidate
versions makes the operation fail with the package-not-found error carrying
the full list of searched repositories, and no install command is issued
(the spawn trace is the search command alone).  The APT backend behaves
differently: with zero parsed candidates it falls through and issues the
pinned install anyway. -/
theorem c5_package_not_found :
    (∀ (exec : ExecOracle) (options : InstallVersionOptions) (searchOut : CmdOutput),
      Apk.validate_package_version_input options.package = true →
      Apk.validate_package_version_input options.version = true →
      exec (Apk.searchCmd { query := options.package, repository := none }) =
        some searchOut →
      Apk.searchCandidates options.package (execResultOfOutput searchOut) = [] →
      Apk.install_package_with_version exec options =
        (.error (.packageNotFound options.package options.version
          Apk.SEARCH_REPOSITORIES),
         [Apk.searchCmd { query := options.package, repository := none }])) ∧
    (∀ (exec : ExecOracle) (options : InstallVersionOptions) (madisonOut : CmdOutput),
      Apt.validate_package_version_input options.package = true →
      Apt.validate_package_version_input options.version = true →
      exec (Apt.madisonCmd options.package) = some madisonOut →
      Apt.madisonVersions madisonOut = [] →
      Apt.install_package_with_version exec options =
        (match exec (Apt.pinInstallCmd options.package options.version) with
         | none =>
           (.error (.spawnError (Apt.pinInstallCmd options.package options.version)),
            [Apt.madisonCmd options.package,
             Apt.pinInstallCmd options.package options.version])
         | some output =>
           (.ok (execResultOfOutput output),
            [Apt.madisonCmd options.package,
             Apt.pinInstallCmd options.package options.version]))) := by
  constructor
  · intro exec options searchOut hp hv hsearch hnil
    have hc : (Apk.searchCandidates options.package
        (execResultOfOutput searchOut)).contains options.version = false := by
      rw [hnil]
      rfl
    unfold Apk.install_package_with_version
    rw [hp, hv]
    simp only [Bool.not_true, Bool.false_eq_true, if_false]
    unfold Apk.search_package
    dsimp only
    rw [hsearch]
    dsimp only
    rw [if_neg (by rw [hc]; exact Bool.false_ne_true)]
    rw [if_pos (by rw [hnil]; rfl)]
  · intro exec options madisonOut hp hv hmadison hnil
    unfold Apt.install_package_with_version
    rw [hp, hv]
    simp only [Bool.not_true, Bool.false_eq_true, if_false]
    rw [hmadison]
    dsimp only
    rw [hnil]
    rfl

/-- Madison output that parses to zero versions (empty stdout), used by the
C5 counterexample environment. -/
def madisonOutEmpty : CmdOutput :=
  { stdout := "", stderr := "", exitCode := some 0 }

/-- Install output for the C5 counterexample environment. -/
def installOutFallback : CmdOutput :=
  { stdout := "Setting up foo", stderr := "", exitCode := some 0 }

/-- A concrete oracle for the C5 counterexample: madison returns no
versions, the subsequent `apt-get install` succeeds. -/
def execAptFallback : ExecOracle := fun c =>
  if c.program = "apt-cache" then some madisonOutEmpty else some installOutFallback

/-- C5 counterexample: on the APT backend (cited by the claim), a request
whose availability check finds zero candidate versions does NOT fail with a
package-not-found error; the code issues the pinned install command anyway
and returns its result. -/
theorem c5_counterexample :
    Apt.install_package_with_version execAptFallback
      { package := "foo", version := "1.0" } =
      (.ok (execResultOfOutput installOutFallback),
       [Apt.madisonCmd "foo", Apt.pinInstallCmd "foo" "1.0"]) ∧
    Apt.pinInstallCmd "foo" "1.0" ∈
      (Apt.install_package_with_version execAptFallback
        { package := "foo", version := "1.0" }).2 ∧
    (∀ repos : List String,
      (Apt.install_package_with_version execAptFallback
        { package := "foo", version := "1.0" }).1 ≠
        .error (.packageNotFound "foo" "1.0" repos)) := by
  refine ⟨rfl, by decide, ?_⟩
  intro repos h
  exact Except.noConfusion h

/-- An oracle whose every command reports empty output with exit code 1 (an
`apk search` across repositories that matched nothing). -/
def execEmptySearch : ExecOracle := fun _ =>
  some { stdout := "", stderr := "", exitCode := some 1 }

/-- C5 witness: searching for a package `zzz` that appears nowhere makes
the APK backend fail with package-not-found carrying the full repository
list, after spawning only the search command. -/
theorem c5_package_not_found_witness :
    Apk.install_package_with_version execEmptySearch
      { package := "zzz", version := "1.0" } =
      (.error (.packageNotFound "zzz" "1.0" Apk.SEARCH_REPOSITORIES),
       [Apk.searchCmd { query := "zzz", repository := none }]) :=
  c5_package_not_found.1 execEmptySearch { package := "zzz", version := "1.0" }
    { stdout := "", stderr := "", exitCode := some 1 }
    (by decide) (by decide) rfl rfl

/-- C7: for any backend, a request naming a known operation but missing one
of its required arguments is answered with the invalid-parameters error
immediately, with an empty spawn trace (no subprocess). -/
theorem c7_missing_required_argument :
    ∀ (b : Backend) (exec : ExecOracle) (req : CallToolRequestParam),
      (req.name = "install_package" →
        getStringArg req.arguments "package_name" = none →
        callTool b exec req =
          (.error (.invalidParams "missing required parameter: package_name"), [])) ∧
      (req.name = "install_package_with_version" →
        getStringArg req.arguments "package_name" = none →
        callTool b exec req =
          (.error (.invalidParams "missing required parameter: package_name"), [])) ∧
      (∀ package : String,
        req.name = "install_package_with_version" →
        getStringArg req.arguments "package_name" = some package →
        getStringArg req.arguments "version" = none →
        callTool b exec req =
          (.error (.invalidParams "missing required parameter: version"), [])) ∧
      (req.name = "search_package" →
        getStringArg req.arguments "query" = none →
        callTool b exec req =
          (.error (.invalidParams "missing required parameter: query"), [])) := by
  intro b exec req
  refine ⟨?_, ?_, ?_, ?_⟩
  · intro h1 h2
    unfold callTool
    rw [if_pos h1, h2]
  · intro h1 h2
    have hne : ¬ (req.name = "install_package") := by
      rw [h1]; decide
    unfold callTool
    rw [if_neg hne, if_pos h1, h2]
  · intro package h1 hpkg hver
    have hne : ¬ (req.name = "install_package") := by
      rw [h1]; decide
    unfold callTool
    rw [if_neg hne, if_pos h1, hpkg]
    dsimp only
    rw [hver]
  · intro h1 h2
    have hne1 : ¬ (req.name = "install_package") := by rw [h1]; decide
    have hne2 : ¬ (req.name = "install_package_with_version") := by rw [h1]; decide
    have hne3 : ¬ (req.name = "refresh_repositories") := by rw [h1]; decide
    have hne4 : ¬ (req.name = "list_installed_packages") := by rw [h1]; decide
    unfold callTool
    rw [if_neg hne1, if_neg hne2, if_neg hne3, if_neg hne4, if_pos h1, h2]

/-- C7 witness: `search_package` dispatched with an argument bag lacking
`query` is rejected as invalid parameters without any spawn, on the Alpine
backend under the all-fail oracle. -/
theorem c7_missing_required_argument_witness :
    callTool apkBackend execNone
      { name := "search_package", arguments := some [("repository", .str "x")] } =
      (.error (.invalidParams "missing required parameter: query"), []) :=
  (c7_missing_required_argument apkBackend execNone
    { name := "search_package", arguments := some [("repository", .str "x")] }).2.2.2
    rfl (by decide)

/-- C8: a request whose operation name is none of the five known operations
is answered, for any backend and any oracle, with the explicit
unsupported-operation response listing the available operations, with an
empty spawn trace; the dispatcher is a total function, so it neither
crashes nor silently skips the request. -/
theorem c8_unknown_operation :
    ∀ (b : Backend) (exec : ExecOracle) (req : CallToolRequestParam),
      req.name ≠ "install_package" →
      req.name ≠ "install_package_with_version" →
      req.name ≠ "refresh_repositories" →
      req.name ≠ "list_installed_packages" →
      req.name ≠ "search_package" →
      callTool b exec req =
        (.ok (.error ["Unknown tool " ++ req.name ++
          ". Available tools: install_package, install_package_with_version, list_installed_packages, refresh_repositories, search_package"]),
         []) := by
  intro b exec req h1 h2 h3 h4 h5
  unfold callTool
  rw [if_neg h1, if_neg h2, if_neg h3, if_neg h4, if_neg h5]

/-- C8 witness: dispatching the unknown operation name `uninstall_package`
yields the unsupported-operation response with an empty spawn trace. -/
theorem c8_unknown_operation_witness :
    callTool apkBackend execNone { name := "uninstall_package", arguments := none } =
      (.ok (.error ["Unknown tool uninstall_package. Available tools: install_package, install_package_with_version, list_installed_packages, refresh_repositories, search_package"]),
       []) :=
  c8_unknown_operation apkBackend execNone
    { name := "uninstall_package", arguments := none }
    (by decide) (by decide) (by decide) (by decide) (by decide)

/-- The invariant the claims state about every constructed `ExecResult`:
the stdout field is present exactly when the captured stdout was non-empty
(and then carries it verbatim), likewise for stderr, and the status is the
exit code, defaulting to -1 when the process had none. -/
def execResultFaithful (r : ExecResult) (output : CmdOutput) : Prop :=
  ((∃ s, r.stdout = some s) ↔ output.stdout ≠ "") ∧
  (∀ s, r.stdout = some s → s = output.stdout) ∧
  ((∃ s, r.stderr = some s) ↔ output.stderr ≠ "") ∧
  (∀ s, r.stderr = some s → s = output.stderr) ∧
  r.status = (match output.exitCode with
    | some code => code
    | none => -1)

theorem execResultOfOutput_faithful (output : CmdOutput) :
    execResultFaithful (execResultOfOutput output) output := by
  unfold execResultFaithful execResultOfOutput
  by_cases h1 : output.stdout = "" <;> by_cases h2 : output.stderr = "" <;>
    simp [h1, h2]

theorem execResultFaithful_of_eq {r : ExecResult} {output : CmdOutput}
    (hr : r = execResultOfOutput output) : execResultFaithful r output := by
  rw [hr]
  exact execResultOfOutput_faithful output

/-- C9: the `ExecResult` construction is faithful to the subprocess output
(stream fields present iff the captured stream is non-empty, carrying it
verbatim; status is the exit code or -1 without one), and every backend
operation of either backend that returns an `ExecResult` built it, via that
construction, from the output of one of the commands it spawned. -/
theorem c9_exec_result_invariant :
    (∀ output : CmdOutput,
      execResultFaithful (execResultOfOutput output) output) ∧
    (∀ (exec : ExecOracle) (options : InstallOptions) (r : ExecResult) (t : List Cmd),
      Apk.install_package exec options = (.ok r, t) →
      ∃ c output, c ∈ t ∧ exec c = some output ∧ execResultFaithful r output) ∧
    (∀ (exec : ExecOracle) (options : SearchOptions) (r : ExecResult) (t : List Cmd),
      Apk.search_package exec options = (.ok r, t) →
      ∃ c output, c ∈ t ∧ exec c = some output ∧ execResultFaithful r output) ∧
    (∀ (exec : ExecOracle) (r : ExecResult) (t : List Cmd),
      Apk.list_installed_packages exec = (.ok r, t) →
      ∃ c output, c ∈ t ∧ exec c = some output ∧ execResultFaithful r output) ∧
    (∀ (exec : ExecOracle) (r : ExecResult) (t : List Cmd),
      Apk.refresh_repositories exec = (.ok r, t) →
      ∃ c output, c ∈ t ∧ exec c = some output ∧ execResultFaithful r output) ∧
    (∀ (exec : ExecOracle) (options : InstallVersionOptions) (r : ExecResult)
        (t : List Cmd),
      Apk.install_package_with_version exec options = (.ok r, t) →
      ∃ c output, c ∈ t ∧ exec c = some output ∧ execResultFaithful r output) ∧
    (∀ (exec : ExecOracle) (options : InstallOptions) (r : ExecResult) (t : List Cmd),
      Apt.install_package exec options = (.ok r, t) →
      ∃ c output, c ∈ t ∧ exec c = some output ∧ execResultFaithful r output) ∧
    (∀ (exec : ExecOracle) (options : SearchOptions) (r : ExecResult) (t : List Cmd),
      Apt.search_package exec options = (.ok r, t) →
      ∃ c output, c ∈ t ∧ exec c = some output ∧ execResultFaithful r output) ∧
    (∀ (exec : ExecOracle) (r : ExecResult) (t : List Cmd),
      Apt.list_installed_packages exec = (.ok r, t) →
      ∃ c output, c ∈ t ∧ exec c = some output ∧ execResultFaithful r output) ∧
    (∀ (exec : ExecOracle) (r : ExecResult) (t : List Cmd),
      Apt.refresh_repositories exec = (.ok r, t) →
      ∃ c output, c ∈ t ∧ exec c = some output ∧ execResultFaithful r output) ∧
    (∀ (exec : ExecOracle) (options : InstallVersionOptions) (r : ExecResult)
        (t : List Cmd),
      Apt.install_package_with_version exec options = (.ok r, t) →
      ∃ c output, c ∈ t ∧ exec c = some output ∧ execResultFaithful r output) := by
  refine ⟨execResultOfOutput_faithful, ?_, ?_, ?_, ?_, ?_, ?_, ?_, ?_, ?_, ?_⟩
  · intro exec options r t h
    simp only [Apk.install_package] at h
    split at h
    · exact absurd h (by simp)
    · rename_i output hexec
      simp only [Prod.mk.injEq, Except.ok.injEq] at h
      exact ⟨Apk.installCmd options, output,
        by rw [← h.2]; exact List.mem_singleton.mpr rfl,
        hexec, execResultFaithful_of_eq h.1.symm⟩
  · intro exec options r t h
    simp only [Apk.search_package] at h
    split at h
    · exact absurd h (by simp)
    · rename_i output hexec
      simp only [Prod.mk.injEq, Except.ok.injEq] at h
      exact ⟨Apk.searchCmd options, output,
        by rw [← h.2]; exact List.mem_singleton.mpr rfl,
        hexec, execResultFaithful_of_eq h.1.symm⟩
  · intro exec r t h
    simp only [Apk.list_installed_packages] at h
    split at h
    · exact absurd h (by simp)
    · rename_i output hexec
      simp only [Prod.mk.injEq, Except.ok.injEq] at h
      exact ⟨{ program := "apk", args := ["list", "-I"] }, output,
        by rw [← h.2]; exact List.mem_singleton.mpr rfl,
        hexec, execResultFaithful_of_eq h.1.symm⟩
  · intro exec r t h
    simp only [Apk.refresh_repositories] at h
    split at h
    · exact absurd h (by simp)
    · rename_i output hexec
      simp only [Prod.mk.injEq, Except.ok.injEq] at h
      exact ⟨{ program := "apk", args := ["update"] }, output,
        by rw [← h.2]; exact List.mem_singleton.mpr rfl,
        hexec, execResultFaithful_of_eq h.1.symm⟩
  · intro exec options r t h
    simp only [Apk.install_package_with_version, Apk.search_package] at h
    split at h
    · exact absurd h (by simp)
    · split at h
      · exact absurd h (by simp)
      · split at h
        · exact absurd h (by simp)
        · rename_i searchOut hsearch
          split at h
          · split at h
            · exact absurd h (by simp)
            · rename_i installOut hpin
              simp only [Prod.mk.injEq, Except.ok.injEq] at h
              refine ⟨Apk.pinInstallCmd options.package options.version, installOut,
                ?_, hpin, execResultFaithful_of_eq h.1.symm⟩
              rw [← h.2]
              exact List.mem_append_right _ (List.mem_singleton.mpr rfl)
          · split at h
            · exact absurd h (by simp)
            · exact absurd h (by simp)
  · intro exec options r t h
    simp only [Apt.install_package] at h
    split at h
    · exact absurd h (by simp)
    · rename_i output hexec
      simp only [Prod.mk.injEq, Except.ok.injEq] at h
      exact ⟨Apt.installCmd options, output,
        by rw [← h.2]; exact List.mem_singleton.mpr rfl,
        hexec, execResultFaithful_of_eq h.1.symm⟩
  · intro exec options r t h
    simp only [Apt.search_package] at h
    split at h
    · exact absurd h (by simp)
    · rename_i output hexec
      simp only [Prod.mk.injEq, Except.ok.injEq] at h
      exact ⟨{ program := "apt-cache", args := ["search", options.query] }, output,
        by rw [← h.2]; exact List.mem_singleton.mpr rfl,
        hexec, execResultFaithful_of_eq h.1.symm⟩
  · intro exec r t h
    simp only [Apt.list_installed_packages] at h
    split at h
    · exact absurd h (by simp)
    · rename_i output hexec
      simp only [Prod.mk.injEq, Except.ok.injEq] at h
      exact ⟨{ program := "apt", args := ["list", "--installed"] }, output,
        by rw [← h.2]; exact List.mem_singleton.mpr rfl,
        hexec, execResultFaithful_of_eq h.1.symm⟩
  · intro exec r t h
    simp only [Apt.refresh_repositories] at h
    split at h
    · exact absurd h (by simp)
    · rename_i output hexec
      simp only [Prod.mk.injEq, Except.ok.injEq] at h
      exact ⟨{ program := "apt-get", args := ["update"] }, output,
        by rw [← h.2]; exact List.mem_singleton.mpr rfl,
        hexec, execResultFaithful_of_eq h.1.symm⟩
  · intro exec options r t h
    simp only [Apt.install_package_with_version] at h
    split at h
    · exact absurd h (by simp)
    · split at h
      · exact absurd h (by simp)
      · split at h
        · exact absurd h (by simp)
        · rename_i madisonOut hmadison
          split at h
          · split at h
            · exact absurd h (by simp)
            · rename_i installOut hpin
              simp only [Prod.mk.injEq, Except.ok.injEq] at h
              refine ⟨Apt.pinInstallCmd options.package options.version, installOut,
                ?_, hpin, execResultFaithful_of_eq h.1.symm⟩
              rw [← h.2]
              exact List.mem_cons_of_mem _ (List.mem_singleton.mpr rfl)
          · exact absurd h (by simp)

/-- C9 witness: a successful concrete `apk add curl` run under the
`execExact` oracle returns the `ExecResult` built from that subprocess's
output. -/
theorem c9_exec_result_invariant_witness :
    ∃ c output, c ∈ [Apk.installCmd { package := "curl", repository := none }] ∧
      execExact c = some output ∧
      execResultFaithful (execResultOfOutput installOutExact) output :=
  c9_exec_result_invariant.2.1 execExact { package := "curl", repository := none }
    (execResultOfOutput installOutExact)
    [Apk.installCmd { package := "curl", repository := none }] rfl
